import Mathlib

/-!
Shallow embedding of the landlord card-game engine (`src/main.rs`).

The Rust code is embedded definition by definition:
* `Suit`, `Card`, `Play` mirror the Rust enums/structs;
* `getDeck` mirrors `get_deck`;
* `sortFieldMode` mirrors the `sort_field_mode!` macro as instantiated in
  `Game::get_play` (counts are taken over the `suit` field, ties broken by
  `rank`; Rust's `sort_by` is a stable sort, and the output of a stable
  sort is uniquely determined by the comparator and the input order, so it
  is modelled by a stable insertion sort, which the kernel can evaluate);
* fallible Rust functions returning `Result<_, String>` are embedded into
  `RResult`, whose extra constructor `panicked` models a Rust panic
  (`unimplemented!()` / a failing `unwrap()`), since several code paths of
  the source panic rather than return;
* `Game.new`, `Game.take_landlord`, `Game.play_cards`, `Game.pass`,
  `Game.get_play`, `Game.is_valid_play` mirror the corresponding `impl Game`
  items; mutation of `&mut self` is embedded as explicit state passing, each
  operation returning the outcome together with the post-state.

`Game::new` shuffles with `thread_rng`; the shuffle is external randomness,
so `Game.new` takes the already-shuffled deck as a parameter and the
reachability predicate quantifies over decks that are permutations of
`getDeck`.
-/

/-- Outcome of a Rust call: `Ok`, `Err(String)`, or a panic
(`unimplemented!()` or a failing `unwrap()`). -/
inductive RResult (α : Type) where
  | ok : α → RResult α
  | err : String → RResult α
  | panicked : RResult α
deriving DecidableEq

/-- Rust `enum Suit`. -/
inductive Suit where
  | Spades
  | Hearts
  | Diamonds
  | Clubs
  | Joker
deriving DecidableEq, Repr

/-- Rust `struct Card { rank: u8, suit: Suit }`. -/
structure Card where
  rank : Nat
  suit : Suit
deriving DecidableEq, Repr

/-- Rust `enum Play`. -/
inductive Play where
  | Single : Card → Play
  | Pair : List Card → Play
  | TripleSolo : List Card → Play
  | TripleSingle : List Card → Card → Play
  | TripleDouble : List Card → List Card → Play
  | Airplane : List (List Card) → Play
  | QuadTwoSingle : List Card → List Card → List Card → Play
  | QuadTwoPair : List Card → List Card → List Card → Play
  | Bomb : List Card → Play
  | Sequence : List Card → Play
deriving DecidableEq

/-- Rust `get_deck()`: ranks 1..13, four suits each (inner loop over suits),
then the two jokers. 54 cards. -/
def getDeck : List Card :=
  ((List.range 13).flatMap fun r =>
    [Suit.Spades, Suit.Hearts, Suit.Diamonds, Suit.Clubs].map fun s =>
      { rank := r + 1, suit := s })
  ++ [{ rank := 1, suit := Suit.Joker }, { rank := 2, suit := Suit.Joker }]

/-- The cards a committed `Play` consumes. -/
def Play.cards : Play → List Card
  | .Single c => [c]
  | .Pair v => v
  | .TripleSolo v => v
  | .TripleSingle t s => t ++ [s]
  | .TripleDouble t d => t ++ d
  | .Airplane ts => ts.flatten
  | .QuadTwoSingle q a b => q ++ a ++ b
  | .QuadTwoPair q a b => q ++ a ++ b
  | .Bomb v => v
  | .Sequence v => v

/-- Stable insertion of `c` into an already-sorted list: `c` goes before
the first element `x` with `le c x`. Here `le a b` means "the comparator
does not order `a` strictly after `b`", so on comparator ties the element
inserted later — which sits earlier in the original list — comes first. -/
def insertStable (le : Card → Card → Bool) (c : Card) :
    List Card → List Card
  | [] => [c]
  | x :: xs => if le c x then c :: x :: xs else x :: insertStable le c xs

/-- Stable insertion sort: the head (earliest element) is inserted last,
so comparator-tied elements keep their original relative order — exactly
the contract of Rust's stable `Vec::sort_by`. -/
def stableSortBy (le : Card → Card → Bool) : List Card → List Card
  | [] => []
  | x :: xs => insertStable le x (stableSortBy le xs)

/-- The `sort_field_mode!(cards, suit, rank)` macro invocation inside
`Game::get_play`: count the occurrences of each `suit` value, then stably
sort by that count, breaking count-ties by `rank` (`le a b` holds when the
Rust comparator returns `Less` or `Equal` on `(a, b)`). -/
def sortFieldMode (cards : List Card) : List Card :=
  let counts := fun s => (cards.filter fun c => c.suit == s).length
  stableSortBy
    (fun a b =>
      if counts a.suit == counts b.suit then a.rank ≤ b.rank
      else counts a.suit ≤ counts b.suit)
    cards

/-- Rust `Player` struct (just an owned hand). -/
structure Player where
  hand : List Card
deriving DecidableEq

/-- Rust `Game` struct. `players` is the 3-element array. -/
structure Game where
  players : List Player
  current_turn_idx : Nat
  pass_count : Nat
  play_sequence : List Play
  center_pile : List Card
  winner : Option Nat
  landlord : Option Nat
deriving DecidableEq

/-- Access `self.players[p].hand` (defaulting outside 0..2; every source
access is guarded by `player_idx >= 3`). -/
def Game.handOf (g : Game) (p : Nat) : List Card :=
  (g.players.getD p { hand := [] }).hand

/-- Rust `Game::new` on an already-shuffled `deck`: each player pops 17 cards off
the end of the deck in turn, and the 3 remaining cards become the center
pile in their original deck order. -/
def Game.new (deck : List Card) : Game :=
  let rdeck := deck.reverse
  { players := [ { hand := rdeck.take 17 },
                 { hand := (rdeck.drop 17).take 17 },
                 { hand := (rdeck.drop 34).take 17 } ],
    current_turn_idx := 0,
    pass_count := 0,
    play_sequence := [],
    center_pile := (rdeck.drop 51).reverse,
    winner := none,
    landlord := none }

/-- Rust `Game::take_landlord`: reject an invalid player index, reject an empty
center pile, otherwise append the pile to the chosen player's hand, clear
the pile, point the turn at that player and record the landlord. There is
no check that a landlord was already assigned. -/
def Game.take_landlord (g : Game) (p : Nat) : RResult Unit × Game :=
  if p ≥ 3 then (.err "Invalid player index", g)
  else if g.center_pile.length = 0 then (.err "Center pile is empty", g)
  else
    (.ok (),
      { g with
        players := g.players.set p { hand := g.handOf p ++ g.center_pile },
        center_pile := [],
        current_turn_idx := p,
        landlord := some p })

/-- Rust `Game::get_play`: sorts the borrowed card vector in place with
`sort_field_mode!`, then classifies by length: 1 card is a `Single`,
2 cards hit `unimplemented!()` (a panic), anything else is
`Err("Invalid play")`. Returns the classification together with the
mutated (sorted) vector. -/
def Game.get_play (cards : List Card) : RResult Play × List Card :=
  let sorted := sortFieldMode cards
  match sorted with
  | [c] => (.ok (Play.Single c), sorted)
  | [_, _] => (.panicked, sorted)
  | _ => (.err "Invalid play", sorted)

/-- Rust `Game::is_valid_play` is `unimplemented!()`: every call panics. -/
def Game.is_valid_play (_sequence : List Play) (_play : Play)
    (_pass_count : Nat) : RResult Bool :=
  .panicked

/-- One iteration of the removal loop in `Game::play_cards`:
`hand.iter().position(|x| *x == *card)` followed by `remove(idx)` —
removes the first occurrence, `none` when `position` would `unwrap` a
`None` (a panic). -/
def removeFirst (hand : List Card) (c : Card) : Option (List Card) :=
  match hand with
  | [] => none
  | x :: xs => if x = c then some xs else (removeFirst xs c).map (x :: ·)

/-- The whole removal loop of `Game::play_cards`: remove the requested
cards one by one; the Bool is true when some `unwrap` panicked, in which
case the hand keeps the removals made before the panic. -/
def removeLoop (hand : List Card) : List Card → List Card × Bool
  | [] => (hand, false)
  | c :: rest =>
    match removeFirst hand c with
    | some h => removeLoop h rest
    | none => (hand, true)

/-- Rust `Game::play_cards`: reject if the game is won, the player index is
invalid, or a requested card is not in the player's hand; classify via
`get_play` (propagating its error or panic); call `is_valid_play`
(which panics); on the — currently unreachable — success path remove the
cards, append the play, advance the turn, reset the pass count and check
the win condition. -/
def Game.play_cards (g : Game) (p : Nat) (cards : List Card) :
    RResult Unit × Game :=
  if g.winner.isSome then (.err "Game is already won", g)
  else if p ≥ 3 then (.err "Invalid player index", g)
  else if ¬ (cards.all fun c => (g.handOf p).contains c) then
    (.err "Player does not have the card", g)
  else
    match Game.get_play cards with
    | (.err e, _) => (.err e, g)
    | (.panicked, _) => (.panicked, g)
    | (.ok play, _) =>
      match Game.is_valid_play g.play_sequence play g.pass_count with
      | .panicked => (.panicked, g)
      | .err _ => (.panicked, g)
      | .ok valid =>
        if ¬ valid then (.err "Invalid play", g)
        else
          let res := removeLoop (g.handOf p) cards
          let g1 := { g with players := g.players.set p { hand := res.1 } }
          if res.2 then (.panicked, g1)
          else
            let g2 := { g1 with
              play_sequence := g1.play_sequence ++ [play],
              current_turn_idx := (g1.current_turn_idx + 1) % 3,
              pass_count := 0 }
            if (g2.handOf p).length = 0 then
              (.ok (), { g2 with winner := some p })
            else (.ok (), g2)

/-- Rust `Game::pass`: reject if the game is won, the player index is invalid,
or the pass count is already 2; otherwise increment the pass count (a `u8`,
hence mod 256) and advance the turn. No turn-ownership check. -/
def Game.pass (g : Game) (p : Nat) : RResult Unit × Game :=
  if g.winner.isSome then (.err "Game is already won", g)
  else if p ≥ 3 then (.err "Invalid player index", g)
  else if g.pass_count = 2 then (.err "Can't pass again on same turn", g)
  else
    (.ok (),
      { g with
        pass_count := (g.pass_count + 1) % 256,
        current_turn_idx := (g.current_turn_idx + 1) % 3 })

/-- One completed, or panic-interrupted, call of a mutating public
operation, relating pre-state to post-state. -/
inductive Step : Game → Game → Prop where
  | landlord (g : Game) (p : Nat) : Step g (g.take_landlord p).2
  | play (g : Game) (p : Nat) (cards : List Card) :
      Step g (g.play_cards p cards).2
  | pass (g : Game) (p : Nat) : Step g (g.pass p).2

/-- States reachable from a freshly dealt game by any sequence of
landlord assignments, plays and passes. -/
inductive Reachable (deck : List Card) : Game → Prop where
  | init : Reachable deck (Game.new deck)
  | step {g g' : Game} : Reachable deck g → Step g g' → Reachable deck g'

/-- All card locations of a game: the three hands and the center pile. -/
def Game.allCards (g : Game) : List Card :=
  g.handOf 0 ++ g.handOf 1 ++ g.handOf 2 ++ g.center_pile

/-- Total number of cards inside the committed plays of the history. -/
def historyCardCount (g : Game) : Nat :=
  (g.play_sequence.map fun pl => pl.cards.length).sum

/-- Helper: `Game::play_cards` never mutates the game in the current code:
every error path returns before any mutation, and both panicking calls
(`get_play` on 2 cards, `is_valid_play` always) fire before any mutation,
so the success path is unreachable. -/
theorem play_cards_snd (g : Game) (p : Nat) (cards : List Card) :
    (g.play_cards p cards).2 = g := by
  unfold Game.play_cards Game.is_valid_play
  repeat' split <;> try rfl

/-- Helper: `Game::play_cards` never returns `Ok`: all 1-card plays reach
the panicking `is_valid_play`, 2-card plays panic inside `get_play`, and
every other play is rejected earlier. -/
theorem play_cards_fst_ne_ok (g : Game) (p : Nat) (cards : List Card) :
    (g.play_cards p cards).1 ≠ RResult.ok () := by
  unfold Game.play_cards Game.is_valid_play
  repeat' split <;> simp_all

/-- C1: the claim says a play or pass by a player other than the current
turn pointer fails with `NotPlayersTurn`. The code performs no
turn-ownership check at all: in the freshly dealt game the turn pointer
is 0, yet a pass by player 1 is accepted (and even advances the turn),
and no `NotPlayersTurn` error exists anywhere in the source. -/
theorem c1_out_of_turn_pass_accepted :
    (Game.new getDeck).current_turn_idx = 0 ∧
    ((Game.new getDeck).pass 1).1 = RResult.ok () ∧
    ((Game.new getDeck).pass 1).2.current_turn_idx = 1 := by
  refine ⟨by decide, by decide, by decide⟩

/-- C2: the claim says no input causes a crash or panic. In the code,
`is_valid_play` is `unimplemented!()`, so playing a single card the player
actually holds (here the big joker, on top of the unshuffled deal) panics,
and `get_play` on any 2 cards hits `unimplemented!()` as well. -/
theorem c2_play_attempt_panics :
    ((Game.new getDeck).play_cards 0 [{ rank := 2, suit := Suit.Joker }]).1 =
      RResult.panicked ∧
    (Game.get_play [{ rank := 1, suit := Suit.Spades },
      { rank := 1, suit := Suit.Hearts }]).1 = RResult.panicked := by
  refine ⟨by decide, by decide⟩

/-- C3: the claim says three equal-rank cards classify as `TripleSolo`.
The code's `get_play` handles only the 1-card case; every 3-card input
falls into the default arm and returns `Err("Invalid play")` (the
`InvalidShape` outcome), never `TripleSolo`. -/
theorem c3_triple_not_classified :
    (Game.get_play [{ rank := 3, suit := Suit.Spades },
      { rank := 3, suit := Suit.Hearts },
      { rank := 3, suit := Suit.Diamonds }]).1 =
      RResult.err "Invalid play" := by decide

/-- C4: failure atomicity — whenever `take_landlord`, `play_cards` or
`pass` returns an `Err`, the post-state equals the pre-state in every
field: all error paths return before any mutation. -/
theorem c4_error_atomicity (g : Game) (p : Nat) (cards : List Card)
    (e : String) :
    ((g.take_landlord p).1 = RResult.err e → (g.take_landlord p).2 = g) ∧
    ((g.play_cards p cards).1 = RResult.err e → (g.play_cards p cards).2 = g) ∧
    ((g.pass p).1 = RResult.err e → (g.pass p).2 = g) := by
  refine ⟨?_, fun _ => play_cards_snd g p cards, ?_⟩
  · intro h
    unfold Game.take_landlord at h ⊢
    split_ifs at h ⊢ <;> simp_all
  · intro h
    unfold Game.pass at h ⊢
    split_ifs at h ⊢ <;> simp_all

/-- Witness for C4 at a concrete input: an invalid player index makes
`take_landlord` fail, and the state is exactly the pre-state. -/
theorem c4_error_atomicity_witness :
    ((Game.new getDeck).take_landlord 5).1 = RResult.err "Invalid player index" ∧
    ((Game.new getDeck).take_landlord 5).2 = Game.new getDeck :=
  ⟨by decide,
   (c4_error_atomicity (Game.new getDeck) 5 [] "Invalid player index").1 (by decide)⟩

/-- C7: after every successful play and every successful pass the turn
pointer advances by exactly +1 mod 3. (In the current code no play can
succeed — `is_valid_play` panics first — so the play half holds vacuously;
the pass half is proved from the success path of `Game::pass`.) -/
theorem c7_turn_advances (g : Game) (p : Nat) (cards : List Card) :
    (∀ g1, g.play_cards p cards = (RResult.ok (), g1) →
      g1.current_turn_idx = (g.current_turn_idx + 1) % 3) ∧
    (∀ g1, g.pass p = (RResult.ok (), g1) →
      g1.current_turn_idx = (g.current_turn_idx + 1) % 3) := by
  constructor
  · intro g1 h
    exact absurd (congrArg Prod.fst h) (by simpa using play_cards_fst_ne_ok g p cards)
  · intro g1 h
    unfold Game.pass at h
    split_ifs at h <;> simp_all [Prod.ext_iff]
    subst h
    rfl

/-- Witness for C7 at a concrete input: the first pass of a fresh game
succeeds and moves the turn pointer from 0 to 1. -/
theorem c7_turn_advances_witness :
    ((Game.new getDeck).pass 0).2.current_turn_idx =
      ((Game.new getDeck).current_turn_idx + 1) % 3 :=
  (c7_turn_advances (Game.new getDeck) 0 []).2 ((Game.new getDeck).pass 0).2 (by decide)

/-- C10: a pass succeeds for any valid player index whenever no winner is
recorded and the pass streak is below 2; `Game::pass` checks nothing else
— in particular not the trick history, so the free-lead player (even the
very first player of the game) may pass. -/
theorem c10_free_lead_pass_allowed (g : Game) (p : Nat)
    (hp : p < 3) (hw : g.winner = none) (hpc : g.pass_count < 2) :
    (g.pass p).1 = RResult.ok () := by
  unfold Game.pass
  rw [hw]
  simp [Nat.not_le_of_lt hp, Nat.ne_of_lt hpc]

/-- Witness for C10 at a concrete input: the fresh game has an empty trick
history, no winner and pass streak 0, and player 1 may pass. -/
theorem c10_free_lead_pass_allowed_witness :
    (1 : Nat) < 3 ∧ (Game.new getDeck).winner = none ∧
    (Game.new getDeck).pass_count < 2 ∧
    (Game.new getDeck).play_sequence = [] ∧
    ((Game.new getDeck).pass 1).1 = RResult.ok () :=
  ⟨by decide, by decide, by decide, by decide,
   c10_free_lead_pass_allowed (Game.new getDeck) 1 (by decide) (by decide) (by decide)⟩

/-- Helper: the freshly dealt game distributes exactly the given deck over
the three hands and the center pile (as a permutation). -/
theorem new_allCards_perm (deck : List Card) :
    (Game.new deck).allCards.Perm deck := by
  have key : ∀ l : List Card,
      l.take 17 ++ ((l.drop 17).take 17 ++ ((l.drop 34).take 17 ++ l.drop 51)) = l := by
    intro l
    have h1 : (l.drop 17).drop 17 = l.drop 34 := by rw [List.drop_drop]
    have h2 : (l.drop 34).drop 17 = l.drop 51 := by rw [List.drop_drop]
    calc l.take 17 ++ ((l.drop 17).take 17 ++ ((l.drop 34).take 17 ++ l.drop 51))
        = l.take 17 ++ ((l.drop 17).take 17 ++
            ((l.drop 34).take 17 ++ (l.drop 34).drop 17)) := by rw [h2]
      _ = l.take 17 ++ ((l.drop 17).take 17 ++ l.drop 34) := by
            rw [List.take_append_drop]
      _ = l.take 17 ++ ((l.drop 17).take 17 ++ (l.drop 17).drop 17) := by rw [h1]
      _ = l.take 17 ++ l.drop 17 := by rw [List.take_append_drop]
      _ = l := List.take_append_drop 17 l
  have base : (Game.new deck).allCards =
      deck.reverse.take 17 ++ ((deck.reverse.drop 17).take 17 ++
        ((deck.reverse.drop 34).take 17 ++ (deck.reverse.drop 51).reverse)) := by
    simp [Game.new, Game.allCards, Game.handOf]
  have p : (Game.new deck).allCards.Perm
      (deck.reverse.take 17 ++ ((deck.reverse.drop 17).take 17 ++
        ((deck.reverse.drop 34).take 17 ++ deck.reverse.drop 51))) := by
    rw [base]
    exact List.Perm.append_left _ (List.Perm.append_left _
      (List.Perm.append_left _ (List.reverse_perm _)))
  rw [key deck.reverse] at p
  exact p.trans (List.reverse_perm deck)

/-- Helper: inductive invariant of every reachable state: the hands and
the center pile together hold a permutation of the dealt deck, the trick
history is empty (no play can ever commit, because `is_valid_play`
panics), there is no winner, the pass count is at most 2, and there are
exactly three players. -/
theorem reachable_inv {deck : List Card} {g : Game} (h : Reachable deck g) :
    g.allCards.Perm deck ∧ g.play_sequence = [] ∧ g.winner = none ∧
    g.pass_count ≤ 2 ∧ g.players.length = 3 := by
  induction h with
  | init =>
    exact ⟨new_allCards_perm deck, rfl, rfl, by simp [Game.new], rfl⟩
  | step hr hs ih =>
    obtain ⟨hperm, hseq, hwin, hpc, hlen⟩ := ih
    cases hs with
    | play p cards =>
      rw [play_cards_snd]
      exact ⟨hperm, hseq, hwin, hpc, hlen⟩
    | pass p =>
      unfold Game.pass
      split_ifs with h1 h2 h3
      · exact ⟨hperm, hseq, hwin, hpc, hlen⟩
      · exact ⟨hperm, hseq, hwin, hpc, hlen⟩
      · exact ⟨hperm, hseq, hwin, hpc, hlen⟩
      · exact ⟨hperm, hseq, hwin, by simp; omega, hlen⟩
    | landlord p =>
      unfold Game.take_landlord
      split_ifs with h1 h2
      · exact ⟨hperm, hseq, hwin, hpc, hlen⟩
      · exact ⟨hperm, hseq, hwin, hpc, hlen⟩
      · obtain ⟨a, b, c, habc⟩ := List.length_eq_three.mp hlen
        refine ⟨?_, hseq, hwin, hpc, by simp [habc]⟩
        refine List.Perm.trans ?_ hperm
        have hp3 : p < 3 := by omega
        interval_cases p <;>
          simp [Game.allCards, Game.handOf, habc] <;>
          (rw [← Multiset.coe_eq_coe]; simp only [← Multiset.coe_add]; abel)

/-- C5: in every state reachable from a fresh deal of a (shuffled) full
deck by landlord assignment, plays and passes, the three hand sizes plus
the kitty size total 54 minus the cards committed into the trick history,
and no card occurs twice across hands and kitty. -/
theorem c5_conservation (deck : List Card) (g : Game)
    (hdeck : deck.Perm getDeck) (hg : Reachable deck g) :
    ((g.handOf 0).length + (g.handOf 1).length + (g.handOf 2).length +
      g.center_pile.length = 54 - historyCardCount g) ∧
    g.allCards.Nodup := by
  obtain ⟨hperm, hseq, -, -, -⟩ := reachable_inv hg
  constructor
  · have hlen : g.allCards.length = getDeck.length :=
      (hperm.trans hdeck).length_eq
    have h54 : getDeck.length = 54 := by decide
    have hsum : g.allCards.length = (g.handOf 0).length +
        ((g.handOf 1).length + ((g.handOf 2).length +
          g.center_pile.length)) := by
      simp [Game.allCards]
    have hh : historyCardCount g = 0 := by simp [historyCardCount, hseq]
    omega
  · have hnd : getDeck.Nodup := by decide
    exact (hperm.trans hdeck).nodup_iff.mpr hnd

/-- Witness for C5 at a concrete input: the freshly dealt (unshuffled)
deck satisfies the conservation statement. -/
theorem c5_conservation_witness :
    Reachable getDeck (Game.new getDeck) ∧
    (((Game.new getDeck).handOf 0).length +
      ((Game.new getDeck).handOf 1).length +
      ((Game.new getDeck).handOf 2).length +
      (Game.new getDeck).center_pile.length =
        54 - historyCardCount (Game.new getDeck)) ∧
    (Game.new getDeck).allCards.Nodup :=
  ⟨Reachable.init,
   (c5_conservation getDeck (Game.new getDeck) (List.Perm.refl _) Reachable.init).1,
   (c5_conservation getDeck (Game.new getDeck) (List.Perm.refl _) Reachable.init).2⟩

/-- C6: in every reachable state the pass counter is in {0,1,2}; a
successful play resets it to 0 (vacuously so in the current code, since
no play can succeed — `is_valid_play` panics first); a successful pass
increments it by exactly 1; and a pass attempted by a valid player when
the counter is 2 fails with the `CannotPassTwiceRunning` error. -/
theorem c6_pass_streak (deck : List Card) (g : Game) (p : Nat)
    (hg : Reachable deck g) :
    g.pass_count < 3 ∧
    (∀ cards g1, g.play_cards p cards = (RResult.ok (), g1) →
      g1.pass_count = 0) ∧
    ((g.pass p).1 = RResult.ok () →
      (g.pass p).2.pass_count = g.pass_count + 1) ∧
    (p < 3 → g.pass_count = 2 →
      (g.pass p).1 = RResult.err "Can't pass again on same turn") := by
  obtain ⟨-, -, hwin, hpc, -⟩ := reachable_inv hg
  refine ⟨by omega, ?_, ?_, ?_⟩
  · intro cards g1 hok
    exact absurd (congrArg Prod.fst hok)
      (by simpa using play_cards_fst_ne_ok g p cards)
  · intro hok
    unfold Game.pass at hok ⊢
    split_ifs at hok ⊢ with h1 h2 h3
    show (g.pass_count + 1) % 256 = g.pass_count + 1
    omega
  · intro hp3 h2
    unfold Game.pass
    rw [hwin, h2]
    simp [Nat.not_le_of_lt hp3]

/-- Witness for C6 at a concrete input: after two passes from the fresh
deal the counter is 2 and a third pass is rejected with the
`CannotPassTwiceRunning` error. -/
theorem c6_pass_streak_witness :
    Reachable getDeck (((Game.new getDeck).pass 0).2.pass 0).2 ∧
    (((Game.new getDeck).pass 0).2.pass 0).2.pass_count = 2 ∧
    ((((Game.new getDeck).pass 0).2.pass 0).2.pass 1).1 =
      RResult.err "Can't pass again on same turn" :=
  ⟨Reachable.step (Reachable.step Reachable.init (Step.pass _ 0)) (Step.pass _ 0),
   by decide,
   (c6_pass_streak getDeck (((Game.new getDeck).pass 0).2.pass 0).2 1
     (Reachable.step (Reachable.step Reachable.init (Step.pass _ 0))
       (Step.pass _ 0))).2.2.2 (by decide) (by decide)⟩

/-- C8 counterexample: there is no `LandlordAlreadyAssigned` check. In the
reachable double-assignment state the second call fails — but with the
empty-kitty error, not a landlord error; and on a state with a landlord
recorded while the kitty is nonempty, `take_landlord` even succeeds. -/
theorem c8_no_landlord_already_assigned_check :
    ((((Game.new getDeck).take_landlord 0).2).take_landlord 1).1 =
      RResult.err "Center pile is empty" ∧
    (((Game.new getDeck).take_landlord 0).2).landlord = some 0 ∧
    ((⟨[⟨[]⟩, ⟨[]⟩, ⟨[]⟩], 0, 0, [], [⟨1, Suit.Spades⟩], none, some 0⟩ : Game).landlord
      = some 0 ∧
     ((⟨[⟨[]⟩, ⟨[]⟩, ⟨[]⟩], 0, 0, [], [⟨1, Suit.Spades⟩], none, some 0⟩ : Game).take_landlord 1).1
      = RResult.ok ()) := by
  exact ⟨by decide, by decide, by decide, by decide⟩

/-- C8 as the code has it: `take_landlord` validates only the player index
(`InvalidPlayerIndex`) and kitty non-emptiness (`EmptyKitty`) — a landlord
being recorded is never checked — and on success it moves every kitty card
into the chosen player's hand, empties the kitty, sets the turn pointer to
that player and records the landlord. -/
theorem c8_landlord_assignment (g : Game) (p : Nat) :
    (p ≥ 3 → (g.take_landlord p).1 = RResult.err "Invalid player index") ∧
    (p < 3 → g.center_pile = [] →
      (g.take_landlord p).1 = RResult.err "Center pile is empty") ∧
    (p < 3 → g.center_pile ≠ [] → g.players.length = 3 →
      (g.take_landlord p).1 = RResult.ok () ∧
      (g.take_landlord p).2.handOf p = g.handOf p ++ g.center_pile ∧
      (g.take_landlord p).2.center_pile = [] ∧
      (g.take_landlord p).2.current_turn_idx = p ∧
      (g.take_landlord p).2.landlord = some p) := by
  refine ⟨?_, ?_, ?_⟩
  · intro hp
    unfold Game.take_landlord
    rw [if_pos hp]
  · intro hp hc
    unfold Game.take_landlord
    rw [if_neg (by omega), if_pos (by simp [hc])]
  · intro hp hc hlen
    have hc0 : ¬ g.center_pile.length = 0 := by
      simpa [List.length_eq_zero] using hc
    obtain ⟨a, b, c, habc⟩ := List.length_eq_three.mp hlen
    unfold Game.take_landlord
    rw [if_neg (by omega), if_neg hc0]
    refine ⟨rfl, ?_, rfl, rfl, rfl⟩
    simp only [Game.handOf, habc]
    interval_cases p <;> rfl

/-- Witness for C8 at a concrete input: assigning the landlord on the
fresh deal succeeds and has all the stated effects. -/
theorem c8_landlord_assignment_witness :
    (0 : Nat) < 3 ∧ (Game.new getDeck).center_pile ≠ [] ∧
    (Game.new getDeck).players.length = 3 ∧
    (((Game.new getDeck).take_landlord 0).1 = RResult.ok () ∧
      ((Game.new getDeck).take_landlord 0).2.handOf 0 =
        (Game.new getDeck).handOf 0 ++ (Game.new getDeck).center_pile ∧
      ((Game.new getDeck).take_landlord 0).2.center_pile = [] ∧
      ((Game.new getDeck).take_landlord 0).2.current_turn_idx = 0 ∧
      ((Game.new getDeck).take_landlord 0).2.landlord = some 0) :=
  ⟨by decide, by decide, by decide,
   (c8_landlord_assignment (Game.new getDeck) 0).2.2 (by decide) (by decide) (by decide)⟩

/-- Helper: stable insertion permutes: inserting `c` yields `c :: l` up to
permutation. -/
theorem insertStable_perm (le : Card → Card → Bool) (c : Card)
    (l : List Card) : (insertStable le c l).Perm (c :: l) := by
  induction l with
  | nil => exact List.Perm.refl _
  | cons x xs ih =>
    unfold insertStable
    split
    · exact List.Perm.refl _
    · exact (ih.cons x).trans (List.Perm.swap c x xs)

/-- Helper: the stable sort is a permutation of its input. -/
theorem stableSortBy_perm (le : Card → Card → Bool) (l : List Card) :
    (stableSortBy le l).Perm l := by
  induction l with
  | nil => exact List.Perm.refl _
  | cons x xs ih =>
    exact (insertStable_perm le x (stableSortBy le xs)).trans (ih.cons x)

/-- Helper: `sort_field_mode!` permutes the card list. -/
theorem sortFieldMode_perm (l : List Card) : (sortFieldMode l).Perm l :=
  stableSortBy_perm _ l

/-- Helper: in every branch `get_play` hands back the sorted vector. -/
theorem get_play_snd (cards : List Card) :
    (Game.get_play cards).2 = sortFieldMode cards := by
  rcases e : sortFieldMode cards with - | ⟨a, - | ⟨b, - | ⟨c, t⟩⟩⟩ <;>
    simp [Game.get_play, e]

/-- Helper: the classification outcome of `get_play` depends only on the
multiset of offered cards: permutation-equal inputs agree. -/
theorem get_play_fst_perm_invariant {l1 l2 : List Card} (h : l1.Perm l2) :
    (Game.get_play l1).1 = (Game.get_play l2).1 := by
  have h12 : (sortFieldMode l1).Perm (sortFieldMode l2) :=
    ((sortFieldMode_perm l1).trans h).trans (sortFieldMode_perm l2).symm
  have hlen := h12.length_eq
  simp only [Game.get_play]
  rcases e1 : sortFieldMode l1 with - | ⟨a1, - | ⟨b1, - | ⟨c1, t1⟩⟩⟩ <;>
    rcases e2 : sortFieldMode l2 with - | ⟨a2, - | ⟨b2, - | ⟨c2, t2⟩⟩⟩ <;>
      simp_all

/-- C9 counterexample: the classifier mutates the offered card list: on
`[5♠, 3♠, 4♠]` the in-place sort reorders the list, so the list after
classification differs from the list passed in. -/
theorem c9_classifier_reorders :
    (Game.get_play [{ rank := 5, suit := Suit.Spades },
      { rank := 3, suit := Suit.Spades },
      { rank := 4, suit := Suit.Spades }]).2 ≠
    [{ rank := 5, suit := Suit.Spades },
     { rank := 3, suit := Suit.Spades },
     { rank := 4, suit := Suit.Spades }] := by decide

/-- C9 as the code has it: the classifier sorts the borrowed list in
place — so the order may change — but it preserves the multiset of cards
(the resulting list is a permutation of the input), and its classification
result is a pure function of that multiset: permutation-equal inputs
classify identically. It touches no other state (it is a static function
of the card list alone). -/
theorem c9_classifier_pure (cards : List Card) :
    (Game.get_play cards).2.Perm cards ∧
    (∀ cards2, cards.Perm cards2 →
      (Game.get_play cards).1 = (Game.get_play cards2).1) := by
  constructor
  · rw [get_play_snd]
    exact sortFieldMode_perm cards
  · intro cards2 hp
    exact get_play_fst_perm_invariant hp

/-- Witness for the corrected C9 at a concrete input: a 2-card list is
returned as a permutation of itself, and swapping the two cards does not
change the classification outcome. -/
theorem c9_classifier_pure_witness :
    (Game.get_play [{ rank := 5, suit := Suit.Spades },
      { rank := 3, suit := Suit.Spades }]).2.Perm
      [{ rank := 5, suit := Suit.Spades },
       { rank := 3, suit := Suit.Spades }] ∧
    (Game.get_play [{ rank := 5, suit := Suit.Spades },
      { rank := 3, suit := Suit.Spades }]).1 =
    (Game.get_play [{ rank := 3, suit := Suit.Spades },
      { rank := 5, suit := Suit.Spades }]).1 :=
  ⟨(c9_classifier_pure [{ rank := 5, suit := Suit.Spades },
      { rank := 3, suit := Suit.Spades }]).1,
   (c9_classifier_pure [{ rank := 5, suit := Suit.Spades },
      { rank := 3, suit := Suit.Spades }]).2
     [{ rank := 3, suit := Suit.Spades },
      { rank := 5, suit := Suit.Spades }] (by decide)⟩
